import Mathlib

/-!
Verification development for the brigade-github-app webhook gateway.

The definitions below are a shallow embedding of the gateway's Go source:
bytes are `List Nat` (each < 256), 32-bit machine words are `Nat` reduced
modulo `2 ^ 32`, fallible operations return `Except`/`Option`, and the
external collaborators (build store, GitHub API, pod indexer) are supplied
as explicit environment records of functions.
-/

namespace Brigade

/-! ### Crypto primitives

Models of Go's `crypto/sha1`, `crypto/hmac` and `crypto/subtle` as used by
`SHA1HMAC` and `validateSignature` in `pkg/webhook`. -/

/-- Reduce to a 32-bit machine word. -/
def w32 (n : Nat) : Nat := n % 4294967296

/-- 32-bit left rotation by `b` of a word `n`. -/
def rotl (b n : Nat) : Nat := w32 ((n <<< b) ||| (n >>> (32 - b)))

/-- Big-endian 8-byte encoding of a 64-bit length. -/
def beBytes8 (n : Nat) : List Nat :=
  [n >>> 56 &&& 255, n >>> 48 &&& 255, n >>> 40 &&& 255, n >>> 32 &&& 255,
   n >>> 24 &&& 255, n >>> 16 &&& 255, n >>> 8 &&& 255, n &&& 255]

/-- SHA-1 padding: append `0x80`, zero bytes to 56 mod 64, then the
big-endian 64-bit bit length. -/
def sha1Pad (msg : List Nat) : List Nat :=
  let padZeros := (119 - msg.length % 64) % 64
  msg ++ [128] ++ List.replicate padZeros 0 ++ beBytes8 (msg.length * 8)

/-- Assemble big-endian 32-bit words from bytes. -/
def bytesToWords : List Nat → List Nat
  | b0 :: b1 :: b2 :: b3 :: rest =>
    ((b0 <<< 24) ||| (b1 <<< 16) ||| (b2 <<< 8) ||| b3) :: bytesToWords rest
  | _ => []

/-- Big-endian bytes of a 32-bit word. -/
def wordBytes (w : Nat) : List Nat :=
  [w >>> 24 &&& 255, w >>> 16 &&& 255, w >>> 8 &&& 255, w &&& 255]

/-- Message-schedule extension: append `n` further words, where word `i` is
`rotl 1 (w[i-3] ^^^ w[i-8] ^^^ w[i-14] ^^^ w[i-16])`. -/
def extendWords : Nat → List Nat → List Nat
  | 0, ws => ws
  | n+1, ws =>
    let i := ws.length
    let w := rotl 1 ((ws.getD (i-3) 0) ^^^ (ws.getD (i-8) 0) ^^^
      (ws.getD (i-14) 0) ^^^ (ws.getD (i-16) 0))
    extendWords n (ws ++ [w])

/-- The five-word SHA-1 chaining state. -/
structure Sha1State where
  a : Nat
  b : Nat
  c : Nat
  d : Nat
  e : Nat
  deriving Repr, DecidableEq

/-- Round function: choice, parity, majority, parity. -/
def sha1F (i b c d : Nat) : Nat :=
  if i < 20 then (b &&& c) ||| ((b ^^^ 4294967295) &&& d)
  else if i < 40 then b ^^^ c ^^^ d
  else if i < 60 then (b &&& c) ||| (b &&& d) ||| (c &&& d)
  else b ^^^ c ^^^ d

/-- Round constants. -/
def sha1K (i : Nat) : Nat :=
  if i < 20 then 1518500249
  else if i < 40 then 1859775393
  else if i < 60 then 2400959708
  else 3395469782

/-- One SHA-1 round. -/
def sha1Step (ws : List Nat) (st : Sha1State) (i : Nat) : Sha1State :=
  let temp := w32 (rotl 5 st.a + sha1F i st.b st.c st.d + st.e + sha1K i + ws.getD i 0)
  ⟨temp, st.a, rotl 30 st.b, st.c, st.d⟩

/-- Compress one 64-byte block into the chaining state. -/
def sha1Block (h : Sha1State) (block : List Nat) : Sha1State :=
  let ws := extendWords 64 (bytesToWords block)
  let st := (List.range 80).foldl (sha1Step ws) h
  ⟨w32 (h.a + st.a), w32 (h.b + st.b), w32 (h.c + st.c), w32 (h.d + st.d), w32 (h.e + st.e)⟩

/-- Split into 64-byte blocks (the fuel argument is an upper bound on the
number of blocks; the input length is always sufficient). -/
def toBlocks : Nat → List Nat → List (List Nat)
  | 0, _ => []
  | _+1, [] => []
  | fuel+1, l => l.take 64 :: toBlocks fuel (l.drop 64)

/-- SHA-1 digest (20 bytes) of a byte message. -/
def sha1 (msg : List Nat) : List Nat :=
  let padded := sha1Pad msg
  let h0 : Sha1State := ⟨1732584193, 4023233417, 2562383102, 271733878, 3285377520⟩
  let h := (toBlocks padded.length padded).foldl sha1Block h0
  wordBytes h.a ++ wordBytes h.b ++ wordBytes h.c ++ wordBytes h.d ++ wordBytes h.e

/-- HMAC-SHA1 (RFC 2104, block size 64), as `crypto/hmac` computes it. -/
def hmacSha1 (key msg : List Nat) : List Nat :=
  let k0 := if 64 < key.length then sha1 key else key
  let k := k0 ++ List.replicate (64 - k0.length) 0
  sha1 ((k.map (fun b => b ^^^ 92)) ++ sha1 ((k.map (fun b => b ^^^ 54)) ++ msg))

/-- Lowercase hexadecimal digit. -/
def hexDigit (n : Nat) : Char := if n < 10 then Char.ofNat (48 + n) else Char.ofNat (87 + n)

/-- Two lowercase hex digits of a byte, as Go's `%x` formats each byte. -/
def hexByte (b : Nat) : List Char := [hexDigit (b / 16 % 16), hexDigit (b % 16)]

/-- Lowercase hex string of a byte slice (Go `fmt.Sprintf "%x"`). -/
def hexOfBytes (bs : List Nat) : String := ⟨(bs.map hexByte).flatten⟩

/-- UTF-8 encoding of one character (Go `[]byte(string)` byte semantics). -/
def utf8Char (c : Char) : List Nat :=
  let v := c.toNat
  if v < 128 then [v]
  else if v < 2048 then [192 + (v >>> 6), 128 + (v &&& 63)]
  else if v < 65536 then [224 + (v >>> 12), 128 + ((v >>> 6) &&& 63), 128 + (v &&& 63)]
  else [240 + (v >>> 18), 128 + ((v >>> 12) &&& 63), 128 + ((v >>> 6) &&& 63), 128 + (v &&& 63)]

/-- UTF-8 bytes of a string. -/
def utf8Bytes (s : String) : List Nat := (s.toList.map utf8Char).flatten

/-- `SHA1HMAC` from `pkg/webhook/github.go`: the GitHub signature string
`"sha1=" ++ hex(HMAC-SHA1(salt, message))`. -/
def SHA1HMAC (salt message : List Nat) : String :=
  "sha1=" ++ hexOfBytes (hmacSha1 salt message)

/-- Go `crypto/subtle.ConstantTimeCompare`: 1 when the byte slices are
equal in length and contents (via an accumulated or of xors), else 0. -/
def constantTimeCompare (x y : List Nat) : Nat :=
  if x.length = y.length then
    if (List.zipWith (fun a b => a ^^^ b) x y).foldl (fun a b => a ||| b) 0 = 0 then 1 else 0
  else 0

/-- `validateSignature` from `pkg/webhook/github.go`: compares the computed
`SHA1HMAC` of the body against the `X-Hub-Signature` header value. -/
def validateSignature (signature secretKey : String) (payload : List Nat) : Except String Unit :=
  let sum := SHA1HMAC (utf8Bytes secretKey) payload
  if constantTimeCompare (utf8Bytes sum) (utf8Bytes signature) = 1 then Except.ok ()
  else Except.error "payload signature check failed"

/-! ### Data model

`brigade.Project`, `webhook.GithubOpts`, `brigade.Revision`, `brigade.Build`,
`webhook.Payload` and the parsed GitHub event variants the handlers consume.
Only the fields the gateway reads are modelled. -/

/-- `brigade.Project`: id, repo full name, shared secret. -/
structure Project where
  id : String
  repoName : String
  sharedSecret : String
  deriving DecidableEq, Repr

/-- `webhook.GithubOpts` configuration. -/
structure GithubOpts where
  checkSuiteOnPR : Bool
  appID : Nat
  defaultSharedSecret : String
  emittedEvents : List String
  reportBuildFailures : Bool
  deriving DecidableEq, Repr

/-- `brigade.Revision`. -/
structure Revision where
  commit : String
  ref : String
  deriving DecidableEq, Repr

/-- A generic JSON value, the result of `json.Unmarshal` into
`map[string]interface` territory when a raw body is re-parsed. -/
inductive Json where
  | null
  | bool (b : Bool)
  | num (n : Int)
  | str (s : String)
  | arr (elems : List Json)
  | obj (fields : List (String × Json))
  deriving Repr

/-- `webhook.Payload`: the enriched payload forwarded to the build store
(`Type`, `Token`, `TokenExpires`, `Body`, unexported `AppID`/`InstID`,
plus `Commit`/`Branch` set by the issue-comment enricher). -/
structure Payload where
  type : String
  token : String
  tokenExpires : Nat
  body : Json
  appID : Nat
  instID : Nat
  commit : String
  branch : String
  deriving Repr

/-- The byte slice handed to the build store as `brigade.Build.Payload`:
nil, the raw webhook body, or the JSON serialization of a `Payload`. -/
inductive PayloadBytes where
  | empty
  | raw (bytes : List Nat)
  | marshaled (p : Payload)
  deriving Repr

/-- Byte length of a payload (a marshaled `Payload` is never empty). -/
def pbLength : PayloadBytes → Nat
  | .empty => 0
  | .raw bytes => bytes.length
  | .marshaled _ => 1

/-- `json.Unmarshal` of payload bytes into a `webhook.Payload`, reading the
top-level `token` field: a raw GitHub webhook body has no such field. -/
def unmarshalPayloadToken : PayloadBytes → String
  | .empty => ""
  | .raw _ => ""
  | .marshaled p => p.token

/-- `brigade.Build` (`ID` is assigned by the store; zero at creation). -/
structure Build where
  id : String
  projectID : String
  type : String
  provider : String
  revision : Revision
  payload : PayloadBytes
  deriving Repr

/-- `webhook.buildOpts`. -/
structure BuildOpts where
  tok : String
  issueID : Nat
  deriving DecidableEq, Repr

/-- An HTTP response written through `gin.Context.JSON`. -/
structure Response where
  code : Nat
  status : String
  deriving DecidableEq, Repr

/-- A pull request as fetched through `client.PullRequests.Get`. -/
structure FetchedPR where
  headSHA : String
  number : Nat
  deriving DecidableEq, Repr

/-- Error from the `prToCheckSuite` adapter path. -/
inductive AdapterErr where
  | authFailed
  | other (msg : String)
  deriving DecidableEq, Repr

/-- The external collaborators of a request handler: the build store, the
GitHub API (token mint, PR fetch, check-suite adapter outcome) and the
JSON re-parser. Each is an opaque function supplied per scenario. -/
structure Env where
  getProject : String → Option Project
  createBuildFails : Build → Bool
  mint : Nat → Nat → Option (String × Nat)
  fetchPR : Nat → Option FetchedPR
  reparse : List Nat → Option Json
  checkSuiteAdapter : Option AdapterErr

/-! ### Parsed GitHub events (the fields the handlers read) -/

/-- `github.PullRequestEvent`. -/
structure PullRequestEvent where
  action : String
  repoFullName : String
  headSHA : String
  number : Nat
  prID : Nat
  headRepoFork : Bool
  authorAssociation : String
  installationID : Nat
  deriving DecidableEq, Repr

/-- `github.IssueCommentEvent`. -/
structure IssueCommentEvent where
  action : String
  repoFullName : String
  issueID : Nat
  issueNumber : Nat
  issueIsPR : Bool
  authorAssociation : String
  installationID : Nat
  installationAppID : Nat
  deriving DecidableEq, Repr

/-- `github.CheckSuiteEvent`. -/
structure CheckSuiteEvent where
  action : String
  repoFullName : String
  appID : Nat
  installationID : Nat
  headSHA : String
  headBranch : String
  prIDs : List Nat
  deriving DecidableEq, Repr

/-- `github.CheckRunEvent`. -/
structure CheckRunEvent where
  action : String
  repoFullName : String
  runAppID : Nat
  suiteAppID : Nat
  installationID : Nat
  suiteHeadSHA : String
  suiteHeadBranch : String
  prIDs : List Nat
  deriving DecidableEq, Repr

/-- The argument of `handleCheck`: the result of `github.ParseWebHook`,
which is a `CheckSuiteEvent`, a `CheckRunEvent`, or anything else
(in particular nil when the request body was at most one byte long). -/
inductive CheckEvent where
  | suite (e : CheckSuiteEvent)
  | run (e : CheckRunEvent)
  | other
  deriving DecidableEq, Repr

/-- The argument of `handleEvent` (restricted to the variants the claims
exercise: `commit_comment`, `pull_request`, `push`). -/
inductive HEvent where
  | commitComment (action repoFullName commitID : String)
  | pullRequest (e : PullRequestEvent)
  | push (repoFullName ref headCommitID : String) (deleted : Bool)
  deriving DecidableEq, Repr

/-! ### Webhook handler operations (`pkg/webhook`) -/

/-- `strings.Split(eventType, ":")[0]`: the part before the first colon. -/
def unqualifiedName (eventType : String) : String :=
  ⟨eventType.toList.takeWhile (fun c => c != ':')⟩

/-- `githubHook.shouldEmit`: the emission filter over `EmittedEvents`. -/
def shouldEmit (cfg : GithubOpts) (eventType : String) : Bool :=
  cfg.emittedEvents.any (fun emitableEvent =>
    eventType == emitableEvent || unqualifiedName eventType == emitableEvent ||
      emitableEvent == "*")

/-- `githubHook.isAllowedAuthor`: membership in the configured allowlist. -/
def isAllowedAuthor (allowedAuthors : List String) (author : String) : Bool :=
  allowedAuthors.any (fun a => a == author)

/-- `githubHook.isAllowedPullRequest`: forked PRs require an allowed
author association; then the action must be one of the six supported. -/
def isAllowedPullRequest (allowedAuthors : List String) (e : PullRequestEvent) : Bool :=
  let isFork := e.headRepoFork
  if isFork && !(isAllowedAuthor allowedAuthors e.authorAssociation) then false
  else if e.action == "opened" || e.action == "synchronize" || e.action == "reopened" ||
      e.action == "labeled" || e.action == "unlabeled" || e.action == "closed" then true
  else false

/-- The shared secret chosen by `getValidatedProject`: the project's, with
the gateway's `DefaultSharedSecret` as fallback. -/
def effectiveSecret (cfg : GithubOpts) (proj : Project) : String :=
  if proj.sharedSecret == "" then cfg.defaultSharedSecret else proj.sharedSecret

/-- `githubHook.getValidatedProject`: look up the project by repo full
name (400 when absent), select the shared secret (500 when empty), verify
the `X-Hub-Signature` header (403 on mismatch). -/
def getValidatedProject (cfg : GithubOpts) (env : Env) (repo : String) (sig : String)
    (body : List Nat) : Except Response Project :=
  match env.getProject repo with
  | none => .error ⟨400, "project not found"⟩
  | some proj =>
    if effectiveSecret cfg proj == "" then
      .error ⟨500, "No secret is configured for this repo."⟩
    else
      match validateSignature sig (effectiveSecret cfg proj) body with
      | .error _ => .error ⟨403, "malformed signature"⟩
      | .ok _ => .ok proj

/-- `githubHook.getInstallationToken`: both IDs must be non-zero, then the
token is minted against the GitHub App installation endpoint. -/
def getInstallationToken (env : Env) (appID instID : Nat) : Option (String × Nat) :=
  if appID == 0 || instID == 0 then none else env.mint appID instID

/-- `githubHook.prToInstallationToken` (`token.go`). -/
def prToInstallationToken (cfg : GithubOpts) (env : Env) (pre : PullRequestEvent) :
    Option (String × Nat) :=
  getInstallationToken env cfg.appID pre.installationID

/-- `githubHook.iceToIntsallationToken` (`token.go`; name as in source):
the payload's app ID, falling back to the configured one when zero. -/
def iceToIntsallationToken (cfg : GithubOpts) (env : Env) (ice : IssueCommentEvent) :
    Option (String × Nat) :=
  let appID := if ice.installationAppID == 0 then cfg.appID else ice.installationAppID
  getInstallationToken env appID ice.installationID

/-- `marshalWithGithubPayload`: re-parse the raw body into a generic JSON
object, set it as `Payload.Body`, and serialize the result. -/
def marshalWithGithubPayload (env : Env) (res : Payload) (body : List Nat) :
    Except Unit PayloadBytes :=
  match env.reparse body with
  | none => .error ()
  | some pl => .ok (.marshaled { res with body := pl })

/-- The `brigade.Build` record `doBuild` constructs. -/
def mkBuild (eventType : String) (rev : Revision) (payload : PayloadBytes)
    (proj : Project) : Build :=
  ⟨"", proj.id, eventType, "github", rev, payload⟩

/-- Result of `doBuild`: the `CreateBuild` calls made, the returned build
pointer (nil when the emission filter rejected), and the store error. -/
structure DoBuildOut where
  createCalls : List Build
  b : Option Build
  errored : Bool
  deriving Repr

/-- `githubHook.doBuild`: consult the emission filter; when it matches,
create the build in the store. -/
def doBuild (cfg : GithubOpts) (env : Env) (eventType : String) (rev : Revision)
    (payload : PayloadBytes) (proj : Project) : DoBuildOut :=
  if shouldEmit cfg eventType then
    let b := mkBuild eventType rev payload proj
    ⟨[b], some b, env.createBuildFails b⟩
  else ⟨[], none, false⟩

/-- `commentableBuild` (reporter-internal). -/
structure CommentableBuild where
  underlying : Build
  issueNumber : Nat
  installationToken : String
  deriving Repr

/-- The reporter's pod-name-to-build map. -/
abbrev PodMap := List (String × CommentableBuild)

/-- `BuildReporter.Add`: computes `"brigade-worker-" ++ b.ID` and registers
the commentable build under that pod name. Called with a nil build pointer
it dereferences `b.ID`; the `none` result stands for that panic. -/
def reporterAdd (m : PodMap) (b : Option Build) (issueNumber : Nat) (tok : String) :
    Option PodMap :=
  match b with
  | none => none
  | some b => some (("brigade-worker-" ++ b.id, ⟨b, issueNumber, tok⟩) :: m)

/-- Result of `githubHook.build`: the `CreateBuild` calls made and whether
the call panicked (nil-build dereference inside `BuildReporter.Add`). -/
structure BuildOut where
  createCalls : List Build
  panicked : Bool
  deriving Repr

/-- `githubHook.build`: run `doBuild`; on store success, when the build
opts carry a token and an issue ID and failure reporting is on, hand the
(possibly nil) build to `BuildReporter.Add`. -/
def build (cfg : GithubOpts) (env : Env) (eventType : String) (rev : Revision)
    (payload : PayloadBytes) (proj : Project) (opts : BuildOpts) : BuildOut :=
  let d := doBuild cfg env eventType rev payload proj
  if d.errored then ⟨d.createCalls, false⟩
  else if opts.tok != "" && opts.issueID != 0 && cfg.reportBuildFailures then
    ⟨d.createCalls, (reporterAdd [] d.b opts.issueID opts.tok).isNone⟩
  else ⟨d.createCalls, false⟩

/-- `githubHook.scheduleBuild`: one build for the raw event type and, when
the action is non-empty, a second for `eventType:action`. -/
def scheduleBuild (cfg : GithubOpts) (env : Env) (eventType action : String)
    (rev : Revision) (payload : PayloadBytes) (proj : Project) (opts : BuildOpts) : BuildOut :=
  let r1 := build cfg env eventType rev payload proj opts
  if r1.panicked then r1
  else if action != "" then
    let r2 := build cfg env (eventType ++ ":" ++ action) rev payload proj opts
    ⟨r1.createCalls ++ r2.createCalls, r2.panicked⟩
  else r1

/-- `githubHook.preToBuildOpts` (`buildopts.go`): token from the PR's
installation, issue ID from the PR's ID; second component reports the
(logged-only) error. -/
def preToBuildOpts (cfg : GithubOpts) (env : Env) (pre : Option PullRequestEvent) :
    BuildOpts × Bool :=
  match pre with
  | none => (⟨"", 0⟩, false)
  | some pre =>
    match prToInstallationToken cfg env pre with
    | none => (⟨"", 0⟩, true)
    | some (tok, _) => (⟨tok, pre.prID⟩, false)

/-- `githubHook.icePayloadToBuildOpts` (`buildopts.go`): reuse the token
embedded in a non-empty payload, else mint a fresh one. -/
def icePayloadToBuildOpts (cfg : GithubOpts) (env : Env) (ice : Option IssueCommentEvent)
    (payload : PayloadBytes) : BuildOpts × Bool :=
  match ice with
  | none => (⟨"", 0⟩, false)
  | some ice =>
    if 0 < pbLength payload then
      (⟨unmarshalPayloadToken payload, ice.issueID⟩, false)
    else
      match iceToIntsallationToken cfg env ice with
      | none => (⟨"", 0⟩, true)
      | some (tok, _) => (⟨tok, ice.issueID⟩, false)

/-- `githubHook.checkEventToBuildOpts` (`buildopts.go`): issue ID from the
event's first associated pull request; indexing `PullRequests[0]` on an
empty slice panics (`none`). -/
def checkEventToBuildOpts (event : CheckEvent) (tok : String) : Option BuildOpts :=
  match event with
  | .suite e => e.prIDs.head?.map (fun i => ⟨tok, i⟩)
  | .run e => e.prIDs.head?.map (fun i => ⟨tok, i⟩)
  | .other => some ⟨tok, 0⟩

/-- `updateIssueCommentEvent`: mint an installation token, fetch the PR
the comment sits on, set the revision to the PR head, and wrap the
original body in an enriched `Payload`. Failures write a response and
fall back to the unmodified body. -/
def updateIssueCommentEvent (cfg : GithubOpts) (env : Env) (ice : IssueCommentEvent)
    (rev : Revision) (body : List Nat) : Revision × PayloadBytes × List Response :=
  match iceToIntsallationToken cfg env ice with
  | none => (rev, .raw body, [⟨403, "Auth Failed"⟩])
  | some (tok, timeout) =>
    match env.fetchPR ice.issueNumber with
    | none => (rev, .raw body,
      [⟨500, "failed to fetch pull request for corresponding issue comment"⟩])
    | some pr =>
      let rev2 : Revision := ⟨pr.headSHA, "refs/pull/" ++ toString pr.number ++ "/head"⟩
      let res : Payload :=
        { type := "issue_comment", token := tok, tokenExpires := timeout,
          body := Json.null, appID := cfg.appID, instID := ice.installationID,
          commit := rev2.commit, branch := rev2.ref }
      match marshalWithGithubPayload env res body with
      | .error _ => (rev2, .empty, [⟨500, "JSON encoding error"⟩])
      | .ok payload => (rev2, payload, [])

/-- The observable outcome of one handler invocation: the responses
written (in order), the builds passed to `CreateBuild` (in order), and
whether the handler panicked on a nil dereference. -/
structure HandleResult where
  responses : List Response
  builds : List Build
  panicked : Bool
  deriving Repr

/-- The tail of `handleEvent` after the event-specific extraction:
project validation, the PR-to-check-suite adaptation, build opts, and
build scheduling. -/
def handleEventValidated (cfg : GithubOpts) (env : Env) (eventType : String)
    (pre : Option PullRequestEvent) (action repo : String) (rev : Revision)
    (body : List Nat) (sig : String) : HandleResult :=
  match getValidatedProject cfg env repo sig body with
  | .error r => ⟨[r], [], false⟩
  | .ok proj =>
    let adapter : Option (List Response) :=
      if eventType == "pull_request" && cfg.checkSuiteOnPR &&
          (action == "opened" || action == "synchronize" || action == "reopened") then
        match env.checkSuiteAdapter with
        | some .authFailed => some [⟨403, "Auth Failed"⟩, ⟨500, "Auth Failed"⟩]
        | some (.other msg) => some [⟨500, msg⟩]
        | none => none
      else none
    match adapter with
    | some rs => ⟨rs, [], false⟩
    | none =>
      let (opts, _) := preToBuildOpts cfg env pre
      let sb := scheduleBuild cfg env eventType action rev (.raw body) proj opts
      if sb.panicked then ⟨[], sb.createCalls, true⟩
      else ⟨[⟨200, "Complete"⟩], sb.createCalls, false⟩

/-- `githubHook.handleEvent` for the modelled variants: the event-specific
switch extracts repo/revision/action and applies the per-event policies
(PR allow policy, branch-deletion skip) before the common tail. -/
def handleEvent (cfg : GithubOpts) (env : Env) (allowedAuthors : List String)
    (eventType : String) (event : HEvent) (body : List Nat) (sig : String) : HandleResult :=
  match event with
  | .commitComment action repo commitID =>
    handleEventValidated cfg env eventType none action repo ⟨commitID, ""⟩ body sig
  | .pullRequest e =>
    if !(isAllowedPullRequest allowedAuthors e) then ⟨[⟨200, "build skipped"⟩], [], false⟩
    else handleEventValidated cfg env eventType (some e) e.action e.repoFullName
      ⟨e.headSHA, "refs/pull/" ++ toString e.number ++ "/head"⟩ body sig
  | .push repo ref headID deleted =>
    if deleted then ⟨[⟨200, "build skipped on branch deletion"⟩], [], false⟩
    else handleEventValidated cfg env eventType none "" repo ⟨headID, ref⟩ body sig

/-- `githubHook.handleIssueComment`: validate the project, run the
enricher for created/edited comments on PRs by allowed authors, default
the ref to `refs/heads/master`, then schedule builds. -/
def handleIssueComment (cfg : GithubOpts) (env : Env) (allowedAuthors : List String)
    (eventType : String) (event : Option IssueCommentEvent) (body : List Nat)
    (sig : String) : HandleResult :=
  match event with
  | none => ⟨[⟨400, "Received data is not supported or not valid JSON"⟩], [], false⟩
  | some ice =>
    match getValidatedProject cfg env ice.repoFullName sig body with
    | .error r => ⟨[r], [], false⟩
    | .ok proj =>
      let (rev, payload, rs) :=
        if (ice.action == "created" || ice.action == "edited") && ice.issueIsPR then
          if !(isAllowedAuthor allowedAuthors ice.authorAssociation) then
            (⟨"", ""⟩, PayloadBytes.empty, [])
          else updateIssueCommentEvent cfg env ice ⟨"", ""⟩ body
        else (⟨"", ""⟩, PayloadBytes.empty, [])
      let rev := if rev.ref == "" then { rev with ref := "refs/heads/master" } else rev
      let (opts, _) := icePayloadToBuildOpts cfg env (some ice) payload
      let sb := scheduleBuild cfg env eventType ice.action rev payload proj opts
      if sb.panicked then ⟨rs, sb.createCalls, true⟩
      else ⟨rs ++ [⟨200, "Complete"⟩], sb.createCalls, false⟩

/-- The app ID `handleCheck` reads off a `CheckRunEvent`: the check run's
app, falling back to its suite's app when zero. -/
def checkRunEffAppID (e : CheckRunEvent) : Nat :=
  if e.runAppID == 0 then e.suiteAppID else e.runAppID

/-- The observable outcome of `handleCheck`: responses, created builds,
whether the project was looked up, whether token minting was reached,
and whether the handler panicked on a nil dereference. -/
structure CheckResult where
  responses : List Response
  builds : List Build
  lookedUpProject : Bool
  minted : Bool
  panicked : Bool
  deriving Repr

/-- `githubHook.handleCheck`: build the `Payload` from the recognized
variant, silently drop deliveries for other app IDs, validate the
project, mint the installation token, marshal the enriched payload, and
schedule builds. An unrecognized variant leaves the payload pointer nil;
the code then dereferences it after project validation. -/
def handleCheck (cfg : GithubOpts) (env : Env) (eventType : String) (event : CheckEvent)
    (body : List Nat) (sig : String) : CheckResult :=
  let stage : Option (Option Payload × String × String × Revision) :=
    match event with
    | .suite e =>
      if e.appID != cfg.appID then none
      else some (some (⟨"check_suite", "", 0, Json.null, e.appID, e.installationID, "", ""⟩ : Payload),
        e.action, e.repoFullName, ⟨e.headSHA, e.headBranch⟩)
    | .run e =>
      if checkRunEffAppID e != cfg.appID then none
      else some (some (⟨"check_run", "", 0, Json.null, checkRunEffAppID e, e.installationID, "", ""⟩ : Payload),
        e.action, e.repoFullName, ⟨e.suiteHeadSHA, e.suiteHeadBranch⟩)
    | .other => some (none, "", "", ⟨"", ""⟩)
  match stage with
  | none => ⟨[], [], false, false, false⟩
  | some (res, action, repo, rev) =>
    match getValidatedProject cfg env repo sig body with
    | .error r => ⟨[r], [], true, false, false⟩
    | .ok proj =>
      match res with
      | none => ⟨[], [], true, false, true⟩
      | some res =>
        match getInstallationToken env res.appID res.instID with
        | none => ⟨[⟨403, "Auth Failed"⟩], [], true, true, false⟩
        | some (tok, timeout) =>
          let res := { res with token := tok, tokenExpires := timeout }
          let (payload, rs1) :=
            match marshalWithGithubPayload env res body with
            | .error _ => (PayloadBytes.empty, ([⟨500, "JSON encoding error"⟩] : List Response))
            | .ok pb => (pb, ([] : List Response))
          match checkEventToBuildOpts event tok with
          | none => ⟨rs1, [], true, true, true⟩
          | some opts =>
            let sb := scheduleBuild cfg env eventType action rev payload proj opts
            if sb.panicked then ⟨rs1, sb.createCalls, true, true, true⟩
            else ⟨rs1 ++ [⟨200, "Complete"⟩], sb.createCalls, true, true, false⟩

/-! ### Build reporter (`pkg/webhook/buildreporter.go`) -/

/-- A worker pod as seen through the indexer. -/
structure Pod where
  name : String
  phase : String
  deriving DecidableEq, Repr

/-- External collaborators of `processBuildPod`: the indexer, the build
store, the installation-token client construction and the GitHub
comment call. -/
structure ReporterEnv where
  indexerGet : String → Except Unit (Option Pod)
  getProjectByID : String → Option Project
  clientFails : Bool
  createCommentFails : Bool

/-- Go `strings.Split` with a one-character separator. -/
def splitOnChar (sep : Char) : List Char → List (List Char)
  | [] => [[]]
  | c :: cs =>
    let r := splitOnChar sep cs
    if c == sep then [] :: r
    else
      match r with
      | [] => [[c]]
      | h :: t => (c :: h) :: t

/-- Observable outcome of `processBuildPod`: whether `CreateComment` was
invoked, whether a non-nil error was returned, and whether the call
panicked (`ownerRepo[1]` on a repo name without a slash). -/
structure ProcessOut where
  commented : Bool
  errored : Bool
  panicked : Bool
  deriving DecidableEq, Repr

/-- `BuildReporter.processBuildPod`: fetch the pod by key (absent pods are
no-ops); `Running`, `Succeeded`, `Unknown` and `Pending` phases are
no-ops; any phase other than `Failed` is an error; `Failed` pods are
looked up in the registered pod-to-build map (unregistered pods are
no-ops), then the project is fetched and the failure comment posted. -/
def processBuildPod (podToBuild : PodMap) (env : ReporterEnv) (key : String) : ProcessOut :=
  match env.indexerGet key with
  | .error _ => ⟨false, true, false⟩
  | .ok none => ⟨false, false, false⟩
  | .ok (some pod) =>
    if pod.phase == "Running" || pod.phase == "Succeeded" || pod.phase == "Unknown" ||
        pod.phase == "Pending" then ⟨false, false, false⟩
    else if pod.phase != "Failed" then ⟨false, true, false⟩
    else
      match podToBuild.lookup pod.name with
      | none => ⟨false, false, false⟩
      | some ctx =>
        match env.getProjectByID ctx.underlying.projectID with
        | none => ⟨false, true, false⟩
        | some proj =>
          if env.clientFails then ⟨false, true, false⟩
          else
            match splitOnChar '/' proj.repoName.toList with
            | _ :: _ :: _ => ⟨true, env.createCommentFails, false⟩
            | _ => ⟨false, false, true⟩

/-- What `completeOrRetry` does to the workqueue. -/
inductive QueueAction where
  | forget
  | addRateLimited
  deriving DecidableEq, Repr

/-- `BuildReporter.completeOrRetry`: `Forget` on success; on error,
`AddRateLimited` while the key's requeue count is below 5, else `Forget`
and drop. -/
def completeOrRetry (errored : Bool) (numRequeues : Nat) : QueueAction :=
  if !errored then .forget
  else if numRequeues < 5 then .addRateLimited
  else .forget

/-- Workqueue requeue counter after one `completeOrRetry`: `Forget`
resets the rate limiter's count, `AddRateLimited` increments it. -/
def requeuesAfter (errored : Bool) (n : Nat) : Nat :=
  match completeOrRetry errored n with
  | .forget => 0
  | .addRateLimited => n + 1

/-- The requeue counter of one key after a sequence of processing
outcomes (`true` = that round errored), starting unrequeued. -/
def requeuesRun (outcomes : List Bool) : Nat :=
  outcomes.foldl (fun n e => requeuesAfter e n) 0

/-! ### Supporting lemmas -/

/-- One `completeOrRetry` keeps the requeue counter at 5 or below. -/
lemma requeuesAfter_le (e : Bool) (n : Nat) (h : n ≤ 5) : requeuesAfter e n ≤ 5 := by
  unfold requeuesAfter completeOrRetry
  cases e with
  | false => simp
  | true =>
    by_cases h5 : n < 5
    · simp [h5]; omega
    · simp [h5]

/-- The requeue counter stays at 5 or below along any run. -/
lemma requeues_foldl_le (outcomes : List Bool) :
    ∀ n, n ≤ 5 → outcomes.foldl (fun n e => requeuesAfter e n) n ≤ 5 := by
  induction outcomes with
  | nil => intro n h; simpa using h
  | cons e t ih =>
    intro n h
    simpa using ih (requeuesAfter e n) (requeuesAfter_le e n h)

/-- When the emission filter matches, `build` creates exactly the one
build and never panics (the build pointer handed to the reporter is
non-nil). -/
lemma build_of_shouldEmit (cfg : GithubOpts) (env : Env) (eventType : String)
    (rev : Revision) (payload : PayloadBytes) (proj : Project) (opts : BuildOpts)
    (h : shouldEmit cfg eventType = true) :
    build cfg env eventType rev payload proj opts =
      ⟨[mkBuild eventType rev payload proj], false⟩ := by
  unfold build doBuild
  simp only [h, if_true]
  split
  · rfl
  · split
    · simp [reporterAdd]
    · rfl

/-- A bitwise or of naturals is zero exactly when both sides are. -/
lemma or_eq_zero_nat (a b : Nat) : a ||| b = 0 ↔ a = 0 ∧ b = 0 := by
  constructor
  · intro h
    constructor <;>
      · apply Nat.eq_of_testBit_eq
        intro i
        have hh := congrArg (fun n => n.testBit i) h
        simp only [Nat.testBit_or, Nat.zero_testBit, Bool.or_eq_false_iff] at hh
        simp [hh.1, hh.2, Nat.zero_testBit]
  · rintro ⟨rfl, rfl⟩
    rfl

/-- Folding or over a list yields zero exactly when the accumulator and
every element are zero. -/
lemma foldl_or_eq_zero (l : List Nat) :
    ∀ a, (l.foldl (fun x y => x ||| y) a = 0 ↔ a = 0 ∧ ∀ x ∈ l, x = 0) := by
  induction l with
  | nil => intro a; simp
  | cons b t ih =>
    intro a
    simp only [List.foldl_cons, ih, or_eq_zero_nat, List.mem_cons]
    constructor
    · rintro ⟨⟨ha, hb⟩, ht⟩
      exact ⟨ha, fun x hx => hx.elim (fun hxb => hxb ▸ hb) (ht x)⟩
    · rintro ⟨ha, hall⟩
      exact ⟨⟨ha, hall b (Or.inl rfl)⟩, fun x hx => hall x (Or.inr hx)⟩

/-- Pointwise xor of a list with itself is all zeros. -/
lemma zipWith_xor_self (l : List Nat) :
    ∀ z ∈ List.zipWith (fun a b => a ^^^ b) l l, z = 0 := by
  induction l with
  | nil => simp
  | cons a as ih =>
    intro z hz
    rcases List.mem_cons.mp hz with h | h
    · simp [h, Nat.xor_self]
    · exact ih z h

/-- For equal-length lists, all pointwise xors vanish exactly when the
lists are equal. -/
lemma zipWith_xor_eq (x : List Nat) :
    ∀ y : List Nat, x.length = y.length →
      ((∀ z ∈ List.zipWith (fun a b => a ^^^ b) x y, z = 0) ↔ x = y) := by
  induction x with
  | nil =>
    intro y hlen
    cases y with
    | nil => simp
    | cons c cs => simp at hlen
  | cons a as ih =>
    intro y hlen
    cases y with
    | nil => simp at hlen
    | cons b bs =>
      have hlen2 : as.length = bs.length := by simpa using hlen
      constructor
      · intro hz
        have h1 : a ^^^ b = 0 := hz _ (List.mem_cons.mpr (Or.inl rfl))
        have h2 : as = bs := (ih bs hlen2).mp (fun z hzz => hz z (List.mem_cons.mpr (Or.inr hzz)))
        rw [Nat.xor_eq_zero.mp h1, h2]
      · rintro h
        rw [h]
        exact zipWith_xor_self (b :: bs)

/-- `ConstantTimeCompare` returns 1 exactly for equal byte slices. -/
lemma ctc_eq_one_iff (x y : List Nat) : constantTimeCompare x y = 1 ↔ x = y := by
  unfold constantTimeCompare
  by_cases hlen : x.length = y.length
  · rw [if_pos hlen]
    by_cases hz : (List.zipWith (fun a b => a ^^^ b) x y).foldl (fun a b => a ||| b) 0 = 0
    · rw [if_pos hz]
      exact ⟨fun _ => (zipWith_xor_eq x y hlen).mp ((foldl_or_eq_zero _ 0).mp hz).2,
        fun _ => rfl⟩
    · rw [if_neg hz]
      constructor
      · intro h0; simp at h0
      · intro hxy
        exact absurd ((foldl_or_eq_zero _ 0).mpr ⟨rfl, (zipWith_xor_eq x y hlen).mpr hxy⟩) hz
  · rw [if_neg hlen]
    constructor
    · intro h; simp at h
    · intro hxy; exact absurd (hxy ▸ rfl) hlen

/-- ASCII characters encode to their single code-point byte. -/
lemma utf8Char_ascii (c : Char) (h : c.toNat < 128) : utf8Char c = [c.toNat] := by
  unfold utf8Char
  simp [h]

/-- Every UTF-8 encoding is a cons whose head is the code point for
ASCII and at least 128 otherwise. -/
lemma utf8Char_cons_head (c : Char) :
    ∃ b t, utf8Char c = b :: t ∧ (c.toNat < 128 → b = c.toNat ∧ t = []) ∧
      (¬ c.toNat < 128 → 128 ≤ b) := by
  unfold utf8Char
  by_cases h1 : c.toNat < 128
  · exact ⟨c.toNat, [], by simp [h1], fun _ => ⟨rfl, rfl⟩, fun h => absurd h1 h⟩
  · by_cases h2 : c.toNat < 2048
    · exact ⟨192 + (c.toNat >>> 6), [128 + (c.toNat &&& 63)], by simp [h1, h2],
        fun h => absurd h h1, fun _ => by omega⟩
    · by_cases h3 : c.toNat < 65536
      · exact ⟨224 + (c.toNat >>> 12),
          [128 + ((c.toNat >>> 6) &&& 63), 128 + (c.toNat &&& 63)],
          by simp [h1, h2, h3], fun h => absurd h h1, fun _ => by omega⟩
      · exact ⟨240 + (c.toNat >>> 18),
          [128 + ((c.toNat >>> 12) &&& 63), 128 + ((c.toNat >>> 6) &&& 63),
            128 + (c.toNat &&& 63)],
          by simp [h1, h2, h3], fun h => absurd h h1, fun _ => by omega⟩

/-- UTF-8 byte streams of an all-ASCII character list determine the
list, against any other character list. -/
lemma utf8_flatten_ascii_inj : ∀ (xs ys : List Char),
    (∀ c ∈ xs, c.toNat < 128) →
    (xs.map utf8Char).flatten = (ys.map utf8Char).flatten → xs = ys := by
  intro xs
  induction xs with
  | nil =>
    intro ys _ h
    cases ys with
    | nil => rfl
    | cons d ds =>
      exfalso
      obtain ⟨b, t, hbt, -, -⟩ := utf8Char_cons_head d
      rw [List.map_cons, List.flatten_cons, hbt] at h
      simp at h
  | cons c cs ih =>
    intro ys hascii h
    cases ys with
    | nil =>
      exfalso
      rw [List.map_cons, List.flatten_cons, utf8Char_ascii c (hascii c (by simp))] at h
      simp at h
    | cons d ds =>
      rw [List.map_cons, List.flatten_cons, utf8Char_ascii c (hascii c (by simp))] at h
      obtain ⟨b, t, hbt, hbAscii, hbHigh⟩ := utf8Char_cons_head d
      rw [List.map_cons, List.flatten_cons, hbt] at h
      simp only [List.cons_append, List.singleton_append, List.cons.injEq] at h
      by_cases hd : d.toNat < 128
      · obtain ⟨hb, ht⟩ := hbAscii hd
        subst hb
        subst ht
        have hcd : c = d := Char.eq_of_val_eq (UInt32.toNat.inj h.1)
        subst hcd
        rw [ih ds (fun x hx => hascii x (by simp [hx])) (by simpa using h.2)]
      · exfalso
        have := hascii c (by simp)
        have := hbHigh hd
        omega

/-- Hex digits are ASCII. -/
lemma hexDigit_ascii : ∀ n, n < 16 → (hexDigit n).toNat < 128 := by decide

/-- Every character of a hex rendering is ASCII. -/
lemma hexOfBytes_ascii (bs : List Nat) : ∀ c ∈ (hexOfBytes bs).toList, c.toNat < 128 := by
  intro c hc
  have hc2 : c ∈ (bs.map hexByte).flatten := hc
  rw [List.mem_flatten] at hc2
  obtain ⟨l, hl, hcl⟩ := hc2
  rw [List.mem_map] at hl
  obtain ⟨b, -, rfl⟩ := hl
  rcases List.mem_cons.mp hcl with h | h
  · exact h ▸ hexDigit_ascii _ (Nat.mod_lt _ (by omega))
  · rcases List.mem_cons.mp h with h | h
    · exact h ▸ hexDigit_ascii _ (Nat.mod_lt _ (by omega))
    · simp at h

/-- Every character of a computed `sha1=…` signature string is ASCII. -/
lemma SHA1HMAC_ascii (k m : List Nat) : ∀ c ∈ (SHA1HMAC k m).toList, c.toNat < 128 := by
  intro c hc
  have hsplit : (SHA1HMAC k m).toList =
      "sha1=".toList ++ (hexOfBytes (hmacSha1 k m)).toList := rfl
  rw [hsplit, List.mem_append] at hc
  rcases hc with h | h
  · exact (by decide : ∀ c ∈ "sha1=".toList, c.toNat < 128) c h
  · exact hexOfBytes_ascii _ c h

/-- UTF-8 encoding is injective from all-ASCII strings. -/
lemma utf8Bytes_inj_ascii (s t : String) (hs : ∀ c ∈ s.toList, c.toNat < 128)
    (h : utf8Bytes s = utf8Bytes t) : s = t := by
  have hlist : s.toList = t.toList := utf8_flatten_ascii_inj s.toList t.toList hs h
  exact congrArg String.mk (by simpa using hlist)

/-- `validateSignature` accepts exactly the header equal to the computed
`sha1=…` digest string. -/
lemma validateSignature_ok_iff (sig secret : String) (body : List Nat) :
    validateSignature sig secret body = Except.ok () ↔
      sig = SHA1HMAC (utf8Bytes secret) body := by
  simp only [validateSignature]
  by_cases h : constantTimeCompare (utf8Bytes (SHA1HMAC (utf8Bytes secret) body))
      (utf8Bytes sig) = 1
  · rw [if_pos h]
    constructor
    · intro _
      exact (utf8Bytes_inj_ascii _ _ (SHA1HMAC_ascii _ _) ((ctc_eq_one_iff _ _).mp h)).symm
    · intro _
      rfl
  · rw [if_neg h]
    constructor
    · intro hcontra
      simp at hcontra
    · intro hsig
      exact absurd ((ctc_eq_one_iff _ _).mpr (by rw [hsig])) h

/-- The correct signature always validates. -/
lemma validateSignature_self (secret : String) (body : List Nat) :
    validateSignature (SHA1HMAC (utf8Bytes secret) body) secret body = Except.ok () :=
  (validateSignature_ok_iff _ _ _).mpr rfl

/-- A computed signature string is never empty (in particular an absent
`X-Hub-Signature` header never matches). -/
lemma SHA1HMAC_ne_empty (k m : List Nat) : SHA1HMAC k m ≠ "" := by
  intro h
  have hdata := congrArg String.data h
  rw [show (SHA1HMAC k m).data =
    's' :: 'h' :: 'a' :: '1' :: '=' :: (hexOfBytes (hmacSha1 k m)).data from rfl] at hdata
  simp at hdata

/-- A `refs/pull/<n>/head` ref is never the empty string. -/
lemma prRef_beq_empty_false (s : String) : (("refs/pull/" ++ s ++ "/head") == "") = false := by
  apply beq_eq_false_iff_ne.mpr
  intro h
  have hd := congrArg String.data h
  rw [show ("refs/pull/" ++ s ++ "/head").data =
    'r' :: ("efs/pull/" ++ s ++ "/head").data from rfl] at hd
  simp at hd

/-- Project validation succeeds under a found project, a non-empty
effective secret, and a valid signature. -/
lemma getValidatedProject_ok (cfg : GithubOpts) (env : Env) (repo sig : String)
    (body : List Nat) (proj : Project)
    (hp : env.getProject repo = some proj)
    (hs : effectiveSecret cfg proj ≠ "")
    (hv : validateSignature sig (effectiveSecret cfg proj) body = Except.ok ()) :
    getValidatedProject cfg env repo sig body = Except.ok proj := by
  have hbeq : (effectiveSecret cfg proj == "") = false := by simpa using hs
  simp [getValidatedProject, hp, hbeq, hv]

/-- When the emission filter matches both types and the action is
non-empty, `scheduleBuild` creates the two builds in order without
panicking. -/
lemma scheduleBuild_both (cfg : GithubOpts) (env : Env) (e a : String) (rev : Revision)
    (payload : PayloadBytes) (proj : Project) (opts : BuildOpts)
    (ha : (a != "") = true)
    (hE1 : shouldEmit cfg e = true)
    (hE2 : shouldEmit cfg (e ++ ":" ++ a) = true) :
    scheduleBuild cfg env e a rev payload proj opts =
      ⟨[mkBuild e rev payload proj, mkBuild (e ++ ":" ++ a) rev payload proj], false⟩ := by
  unfold scheduleBuild
  rw [build_of_shouldEmit cfg env e rev payload proj opts hE1,
    build_of_shouldEmit cfg env (e ++ ":" ++ a) rev payload proj opts hE2]
  simp [ha]

/-! ### Claims -/

/-- C7: on success `completeOrRetry` always forgets the key; on failure
it re-enqueues with `AddRateLimited` exactly while the requeue count is
below 5 and forgets (drops) otherwise, so the requeue counter of a key
never exceeds 5 along any run of processing outcomes. -/
theorem c7_completeOrRetry_bounded_retries :
    (∀ n, completeOrRetry false n = QueueAction.forget) ∧
    (∀ n, n < 5 → completeOrRetry true n = QueueAction.addRateLimited) ∧
    (∀ n, 5 ≤ n → completeOrRetry true n = QueueAction.forget) ∧
    (∀ outcomes, requeuesRun outcomes ≤ 5) := by
  refine ⟨fun n => rfl, fun n h => ?_, fun n h => ?_, fun outcomes => ?_⟩
  · simp [completeOrRetry, h]
  · simp [completeOrRetry]
    omega
  · exact requeues_foldl_le outcomes 0 (by omega)

/-- Witness for C7 at concrete inputs. -/
theorem c7_witness :
    completeOrRetry false 0 = QueueAction.forget ∧
    3 < 5 ∧ completeOrRetry true 3 = QueueAction.addRateLimited ∧
    5 ≤ 5 ∧ completeOrRetry true 5 = QueueAction.forget ∧
    requeuesRun [true, true, true, true, true, true, true] ≤ 5 :=
  ⟨c7_completeOrRetry_bounded_retries.1 0, by decide,
    c7_completeOrRetry_bounded_retries.2.1 3 (by decide), by decide,
    c7_completeOrRetry_bounded_retries.2.2.1 5 (by decide),
    c7_completeOrRetry_bounded_retries.2.2.2 [true, true, true, true, true, true, true]⟩

/-- C1: signature verification succeeds iff the `X-Hub-Signature` header
equals `"sha1="` followed by the lowercase hex HMAC-SHA1 of the body
under the shared secret; on mismatch (an absent header being the empty
string, which never matches) the handler responds 403 and creates no
build. -/
theorem c1_signature_verification :
    (∀ (sig secret : String) (body : List Nat),
      validateSignature sig secret body = Except.ok () ↔
        sig = SHA1HMAC (utf8Bytes secret) body) ∧
    (∀ (cfg : GithubOpts) (env : Env) (authors : List String)
        (evT action repo commitID : String) (body : List Nat) (sig : String)
        (proj : Project),
      env.getProject repo = some proj →
      effectiveSecret cfg proj ≠ "" →
      sig ≠ SHA1HMAC (utf8Bytes (effectiveSecret cfg proj)) body →
      handleEvent cfg env authors evT (.commitComment action repo commitID) body sig =
        ⟨[⟨403, "malformed signature"⟩], [], false⟩) := by
  refine ⟨fun sig secret body => validateSignature_ok_iff sig secret body,
    fun cfg env authors evT action repo commitID body sig proj hproj hsecret hsig => ?_⟩
  have hbeq : (effectiveSecret cfg proj == "") = false := by
    simpa using hsecret
  cases hv : validateSignature sig (effectiveSecret cfg proj) body with
  | ok u =>
    exfalso
    cases u
    exact hsig ((validateSignature_ok_iff _ _ _).mp hv)
  | error e =>
    simp [handleEvent, handleEventValidated, getValidatedProject, hproj, hbeq, hv]

/-- Witness for C1: an absent header (empty string) against a configured
secret is rejected with 403 and zero builds. -/
theorem c1_witness :
    ((⟨fun _ => some ⟨"p1", "o/r", "s"⟩, fun _ => false, fun _ _ => none,
        fun _ => none, fun _ => none, none⟩ : Env).getProject "o/r" =
      some ⟨"p1", "o/r", "s"⟩) ∧
    effectiveSecret ⟨true, 1, "", ["*"], false⟩ ⟨"p1", "o/r", "s"⟩ ≠ "" ∧
    "" ≠ SHA1HMAC (utf8Bytes (effectiveSecret ⟨true, 1, "", ["*"], false⟩
      ⟨"p1", "o/r", "s"⟩)) [123] ∧
    handleEvent ⟨true, 1, "", ["*"], false⟩
      ⟨fun _ => some ⟨"p1", "o/r", "s"⟩, fun _ => false, fun _ _ => none,
        fun _ => none, fun _ => none, none⟩
      [] "commit_comment" (.commitComment "created" "o/r" "abc") [123] "" =
      ⟨[⟨403, "malformed signature"⟩], [], false⟩ :=
  ⟨rfl, by decide, fun h => SHA1HMAC_ne_empty _ _ h.symm,
    c1_signature_verification.2 ⟨true, 1, "", ["*"], false⟩
      ⟨fun _ => some ⟨"p1", "o/r", "s"⟩, fun _ => false, fun _ _ => none,
        fun _ => none, fun _ => none, none⟩
      [] "commit_comment" "created" "o/r" "abc" [123] "" ⟨"p1", "o/r", "s"⟩
      rfl (by decide) (fun h => SHA1HMAC_ne_empty _ _ h.symm)⟩

/-- C9: `handleCheck` on an unrecognized variant (nil parsed event, as
delivered when the body is at most one byte) does not treat the request
as UnsupportedEvent: it proceeds to project validation and, once the
project validates, dereferences the nil payload pointer (`res.AppID`). -/
theorem c9_nil_payload_deref :
    handleCheck ⟨true, 1, "", ["*"], false⟩
      ⟨fun _ => some ⟨"p1", "", "s"⟩, fun _ => false, fun _ _ => none,
        fun _ => none, fun _ => none, none⟩
      "check_suite" CheckEvent.other [] (SHA1HMAC (utf8Bytes "s") []) =
      ⟨[], [], true, false, true⟩ := by
  have hsig : validateSignature (SHA1HMAC (utf8Bytes "s") []) "s" [] = Except.ok () :=
    validateSignature_self "s" []
  simp [handleCheck, getValidatedProject, effectiveSecret, hsig]

/-- C3: the emission filter emits an event iff some configured pattern
equals the full event name, equals its part before `:`, or is `*`; in
particular pattern `issue_comment:created` does not match event
`issue_comment`, while pattern `issue_comment` matches event
`issue_comment:created`. -/
theorem c3_emission_filter_semantics :
    (∀ (cfg : GithubOpts) (ev : String), shouldEmit cfg ev = true ↔
      ∃ p ∈ cfg.emittedEvents, p = ev ∨ p = unqualifiedName ev ∨ p = "*") ∧
    shouldEmit ⟨true, 1, "", ["issue_comment:created"], false⟩ "issue_comment" = false ∧
    shouldEmit ⟨true, 1, "", ["issue_comment"], false⟩ "issue_comment:created" = true := by
  refine ⟨fun cfg ev => ?_, by decide, by decide⟩
  simp only [shouldEmit, List.any_eq_true, Bool.or_eq_true, beq_iff_eq]
  constructor
  · rintro ⟨p, hp, (h | h) | h⟩
    · exact ⟨p, hp, Or.inl h.symm⟩
    · exact ⟨p, hp, Or.inr (Or.inl h.symm)⟩
    · exact ⟨p, hp, Or.inr (Or.inr h)⟩
  · rintro ⟨p, hp, h | h | h⟩
    · exact ⟨p, hp, Or.inl (Or.inl h.symm)⟩
    · exact ⟨p, hp, Or.inl (Or.inr h.symm)⟩
    · exact ⟨p, hp, Or.inr h⟩

/-- C2: when the derived action is non-empty and the emission filter
matches both the raw event type and `eventType:action`, `scheduleBuild`
creates exactly two builds, the first typed `eventType` and the second
typed `eventType:action`, in that order. -/
theorem c2_two_builds_in_order :
    ∀ (cfg : GithubOpts) (env : Env) (e a : String) (rev : Revision)
      (payload : PayloadBytes) (proj : Project) (opts : BuildOpts),
    a ≠ "" →
    shouldEmit cfg e = true →
    shouldEmit cfg (e ++ ":" ++ a) = true →
    (scheduleBuild cfg env e a rev payload proj opts).createCalls =
      [mkBuild e rev payload proj, mkBuild (e ++ ":" ++ a) rev payload proj] ∧
    (mkBuild e rev payload proj).type = e ∧
    (mkBuild (e ++ ":" ++ a) rev payload proj).type = e ++ ":" ++ a := by
  intro cfg env e a rev payload proj opts ha hE hEA
  unfold scheduleBuild
  rw [build_of_shouldEmit cfg env e rev payload proj opts hE,
    build_of_shouldEmit cfg env (e ++ ":" ++ a) rev payload proj opts hEA]
  simp [ha, mkBuild]

/-- Witness for C2 at concrete inputs (default `*` emission pattern,
`release:published`). -/
theorem c2_witness :
    ("published" ≠ "" ∧
      shouldEmit ⟨true, 1, "", ["*"], false⟩ "release" = true ∧
      shouldEmit ⟨true, 1, "", ["*"], false⟩ ("release" ++ ":" ++ "published") = true) ∧
    (scheduleBuild ⟨true, 1, "", ["*"], false⟩
        ⟨fun _ => none, fun _ => false, fun _ _ => none, fun _ => none, fun _ => none, none⟩
        "release" "published" ⟨"", "0.0.1"⟩ (.raw [123]) ⟨"p1", "o/r", "s"⟩ ⟨"", 0⟩).createCalls =
      [mkBuild "release" ⟨"", "0.0.1"⟩ (.raw [123]) ⟨"p1", "o/r", "s"⟩,
       mkBuild ("release" ++ ":" ++ "published") ⟨"", "0.0.1"⟩ (.raw [123]) ⟨"p1", "o/r", "s"⟩] :=
  ⟨⟨by decide, by decide, by decide⟩,
    (c2_two_builds_in_order ⟨true, 1, "", ["*"], false⟩
      ⟨fun _ => none, fun _ => false, fun _ _ => none, fun _ => none, fun _ => none, none⟩
      "release" "published" ⟨"", "0.0.1"⟩ (.raw [123]) ⟨"p1", "o/r", "s"⟩ ⟨"", 0⟩
      (by decide) (by decide) (by decide)).1⟩

/-- C10: when the emission filter rejects an event type, `doBuild`
creates nothing and returns a nil build; `build` then still hands that
nil build to `BuildReporter.Add` whenever the opts carry a non-empty
token and a non-zero issue ID and failure reporting is enabled, and the
`b.ID` dereference inside `Add` panics — the no-build path returns
cleanly only when those reporting conditions do not all hold. -/
theorem c10_nil_build_reporter_panic :
    ∀ (cfg : GithubOpts) (env : Env) (evT : String) (rev : Revision)
      (payload : PayloadBytes) (proj : Project) (opts : BuildOpts),
    shouldEmit cfg evT = false →
    ((doBuild cfg env evT rev payload proj).createCalls = [] ∧
      (doBuild cfg env evT rev payload proj).b = none) ∧
    (opts.tok ≠ "" → opts.issueID ≠ 0 → cfg.reportBuildFailures = true →
      (build cfg env evT rev payload proj opts).panicked = true) ∧
    (opts.tok = "" ∨ opts.issueID = 0 ∨ cfg.reportBuildFailures = false →
      (build cfg env evT rev payload proj opts).panicked = false ∧
      (build cfg env evT rev payload proj opts).createCalls = []) := by
  intro cfg env evT rev payload proj opts hSE
  refine ⟨by simp [doBuild, hSE], fun ht hi hr => ?_, fun h => ?_⟩
  · unfold build doBuild
    simp [hSE, reporterAdd, ht, hi, hr]
  · unfold build doBuild
    simp only [hSE, if_false, Bool.false_eq_true]
    rcases h with h | h | h <;> simp [h]

/-- Witness for C10 at concrete inputs (empty pattern list rejects all
events; reporting conditions hold). -/
theorem c10_witness :
    shouldEmit ⟨true, 1, "", [], true⟩ "push" = false ∧
    (build ⟨true, 1, "", [], true⟩
      ⟨fun _ => none, fun _ => false, fun _ _ => none, fun _ => none, fun _ => none, none⟩
      "push" ⟨"c", "r"⟩ (.raw [123]) ⟨"p1", "o/r", "s"⟩ ⟨"tok", 7⟩).panicked = true :=
  ⟨by decide,
    (c10_nil_build_reporter_panic ⟨true, 1, "", [], true⟩
      ⟨fun _ => none, fun _ => false, fun _ _ => none, fun _ => none, fun _ => none, none⟩
      "push" ⟨"c", "r"⟩ (.raw [123]) ⟨"p1", "o/r", "s"⟩ ⟨"tok", 7⟩
      (by decide)).2.1 (by decide) (by decide) (by decide)⟩

/-- C8: the reporter posts a GitHub comment only for a pod that the
indexer returns with phase `Failed` and whose name is registered in the
pod-to-build map; every other phase, an absent pod, or an unregistered
`Failed` pod produces no comment. -/
theorem c8_comment_only_failed_registered :
    ∀ (m : PodMap) (env : ReporterEnv) (key : String),
    (processBuildPod m env key).commented = true →
    ∃ pod, env.indexerGet key = .ok (some pod) ∧ pod.phase = "Failed" ∧
      (m.lookup pod.name).isSome = true := by
  intro m env key h
  cases hG : env.indexerGet key with
  | error e =>
    unfold processBuildPod at h
    rw [hG] at h
    simp at h
  | ok op =>
    cases op with
    | none =>
      unfold processBuildPod at h
      rw [hG] at h
      simp at h
    | some pod =>
      unfold processBuildPod at h
      rw [hG] at h
      simp only at h
      by_cases h1 : (pod.phase == "Running" || pod.phase == "Succeeded" ||
          pod.phase == "Unknown" || pod.phase == "Pending") = true
      · rw [if_pos h1] at h
        simp at h
      · rw [if_neg h1] at h
        by_cases h2 : pod.phase = "Failed"
        · rw [if_neg (by simp [h2])] at h
          cases hL : m.lookup pod.name with
          | none => rw [hL] at h; simp at h
          | some ctx => exact ⟨pod, rfl, h2, by rw [hL]; rfl⟩
        · rw [if_pos (by simp [h2])] at h
          simp at h

/-- Witness for C8: a registered `Failed` pod on which the comment is
actually posted. -/
theorem c8_witness :
    (processBuildPod
        [("brigade-worker-b1", ⟨⟨"b1", "p1", "push", "github", ⟨"", ""⟩, .empty⟩, 3, "tok"⟩)]
        ⟨fun _ => .ok (some ⟨"brigade-worker-b1", "Failed"⟩),
          fun _ => some ⟨"p1", "o/r", "s"⟩, false, false⟩
        "ns/brigade-worker-b1").commented = true ∧
    (∃ pod, (⟨fun _ => .ok (some ⟨"brigade-worker-b1", "Failed"⟩),
          fun _ => some ⟨"p1", "o/r", "s"⟩, false, false⟩ : ReporterEnv).indexerGet
            "ns/brigade-worker-b1" = .ok (some pod) ∧
      pod.phase = "Failed" ∧
      (([("brigade-worker-b1",
          (⟨⟨"b1", "p1", "push", "github", ⟨"", ""⟩, .empty⟩, 3,
            "tok"⟩ : CommentableBuild))] : PodMap).lookup pod.name).isSome = true) :=
  ⟨rfl, c8_comment_only_failed_registered
    [("brigade-worker-b1", ⟨⟨"b1", "p1", "push", "github", ⟨"", ""⟩, .empty⟩, 3, "tok"⟩)]
    ⟨fun _ => .ok (some ⟨"brigade-worker-b1", "Failed"⟩),
      fun _ => some ⟨"p1", "o/r", "s"⟩, false, false⟩
    "ns/brigade-worker-b1" rfl⟩

/-- C4: a pull_request event is admitted iff its action is one of the six
supported ones and either the head repo is not a fork or the author
association is allowlisted; every rejected pull_request yields HTTP 200
`build skipped` and zero builds. -/
theorem c4_pull_request_policy :
    (∀ (authors : List String) (e : PullRequestEvent),
      isAllowedPullRequest authors e = true ↔
        ((e.action = "opened" ∨ e.action = "synchronize" ∨ e.action = "reopened" ∨
          e.action = "labeled" ∨ e.action = "unlabeled" ∨ e.action = "closed") ∧
          (e.headRepoFork = false ∨ isAllowedAuthor authors e.authorAssociation = true))) ∧
    (∀ (cfg : GithubOpts) (env : Env) (authors : List String) (evT : String)
        (e : PullRequestEvent) (body : List Nat) (sig : String),
      isAllowedPullRequest authors e = false →
      handleEvent cfg env authors evT (.pullRequest e) body sig =
        ⟨[⟨200, "build skipped"⟩], [], false⟩) := by
  refine ⟨fun authors e => ?_, fun cfg env authors evT e body sig h => ?_⟩
  · unfold isAllowedPullRequest
    cases hf : e.headRepoFork <;>
      cases ha : isAllowedAuthor authors e.authorAssociation <;>
        simp [hf, ha] <;> tauto
  · unfold handleEvent
    simp [h]

/-- Witness for C4: a forked PR from a non-allowlisted author is
rejected with 200 `build skipped` and no builds. -/
theorem c4_witness :
    isAllowedPullRequest ["COLLABORATOR", "OWNER", "MEMBER"]
      ⟨"opened", "o/r", "sha1", 1, 42, true, "NONE", 9⟩ = false ∧
    handleEvent ⟨true, 1, "", ["*"], false⟩
      ⟨fun _ => some ⟨"p1", "o/r", "s"⟩, fun _ => false, fun _ _ => none,
        fun _ => none, fun _ => none, none⟩
      ["COLLABORATOR", "OWNER", "MEMBER"] "pull_request"
      (.pullRequest ⟨"opened", "o/r", "sha1", 1, 42, true, "NONE", 9⟩) [123] "sig" =
      ⟨[⟨200, "build skipped"⟩], [], false⟩ :=
  ⟨by decide, c4_pull_request_policy.2 ⟨true, 1, "", ["*"], false⟩
    ⟨fun _ => some ⟨"p1", "o/r", "s"⟩, fun _ => false, fun _ _ => none,
      fun _ => none, fun _ => none, none⟩
    ["COLLABORATOR", "OWNER", "MEMBER"] "pull_request"
    ⟨"opened", "o/r", "sha1", 1, 42, true, "NONE", 9⟩ [123] "sig" (by decide)⟩

/-- C5: a check_suite or check_run delivery whose decoded app ID differs
from the gateway's configured app ID short-circuits before project
lookup, token minting and build creation, writing no response. -/
theorem c5_wrong_app_short_circuit :
    (∀ (cfg : GithubOpts) (env : Env) (evT : String) (e : CheckSuiteEvent)
        (body : List Nat) (sig : String),
      e.appID ≠ cfg.appID →
      handleCheck cfg env evT (.suite e) body sig = ⟨[], [], false, false, false⟩) ∧
    (∀ (cfg : GithubOpts) (env : Env) (evT : String) (e : CheckRunEvent)
        (body : List Nat) (sig : String),
      checkRunEffAppID e ≠ cfg.appID →
      handleCheck cfg env evT (.run e) body sig = ⟨[], [], false, false, false⟩) := by
  constructor
  · intro cfg env evT e body sig h
    unfold handleCheck
    simp [h]
  · intro cfg env evT e body sig h
    unfold handleCheck
    simp [h]

/-- Witness for C5: a check_suite delivery for app 2 against a gateway
configured as app 1. -/
theorem c5_witness :
    (2 : Nat) ≠ (1 : Nat) ∧
    handleCheck ⟨true, 1, "", ["*"], false⟩
      ⟨fun _ => some ⟨"p1", "o/r", "s"⟩, fun _ => false, fun _ _ => none,
        fun _ => none, fun _ => none, none⟩
      "check_suite" (.suite ⟨"requested", "o/r", 2, 9, "sha", "main", [5]⟩) [123] "sig" =
      ⟨[], [], false, false, false⟩ :=
  ⟨by decide, c5_wrong_app_short_circuit.1 ⟨true, 1, "", ["*"], false⟩
    ⟨fun _ => some ⟨"p1", "o/r", "s"⟩, fun _ => false, fun _ _ => none,
      fun _ => none, fun _ => none, none⟩
    "check_suite" ⟨"requested", "o/r", 2, 9, "sha", "main", [5]⟩ [123] "sig" (by decide)⟩

/-- C6: an issue_comment with action created or edited on a pull request
by an allowlisted author, successfully enriched (token minted, PR
fetched, body re-parsed), forwards to the build store a payload whose
top-level token field is the (non-empty) minted token and whose body
field is the original GitHub comment payload re-parsed as a generic JSON
object. -/
theorem c6_enriched_payload_token_and_body :
    ∀ (cfg : GithubOpts) (env : Env) (authors : List String) (ice : IssueCommentEvent)
      (body : List Nat) (sig : String) (proj : Project) (tok : String) (timeout : Nat)
      (pr : FetchedPR) (pl : Json),
    env.getProject ice.repoFullName = some proj →
    effectiveSecret cfg proj ≠ "" →
    validateSignature sig (effectiveSecret cfg proj) body = Except.ok () →
    (ice.action = "created" ∨ ice.action = "edited") →
    ice.issueIsPR = true →
    isAllowedAuthor authors ice.authorAssociation = true →
    iceToIntsallationToken cfg env ice = some (tok, timeout) →
    tok ≠ "" →
    env.fetchPR ice.issueNumber = some pr →
    env.reparse body = some pl →
    shouldEmit cfg "issue_comment" = true →
    shouldEmit cfg ("issue_comment" ++ ":" ++ ice.action) = true →
    (handleIssueComment cfg env authors "issue_comment" (some ice) body sig).builds =
      [mkBuild "issue_comment"
        ⟨pr.headSHA, "refs/pull/" ++ toString pr.number ++ "/head"⟩
        (.marshaled ⟨"issue_comment", tok, timeout, pl, cfg.appID, ice.installationID,
          pr.headSHA, "refs/pull/" ++ toString pr.number ++ "/head"⟩) proj,
       mkBuild ("issue_comment" ++ ":" ++ ice.action)
        ⟨pr.headSHA, "refs/pull/" ++ toString pr.number ++ "/head"⟩
        (.marshaled ⟨"issue_comment", tok, timeout, pl, cfg.appID, ice.installationID,
          pr.headSHA, "refs/pull/" ++ toString pr.number ++ "/head"⟩) proj] ∧
    tok ≠ "" := by
  intro cfg env authors ice body sig proj tok timeout pr pl
    hproj hsec hval hact hpr hauth htok htokne hfetch hrep hE1 hE2
  refine ⟨?_, htokne⟩
  have hgvp := getValidatedProject_ok cfg env ice.repoFullName sig body proj hproj hsec hval
  have hactb : ((ice.action == "created" || ice.action == "edited") && ice.issueIsPR) = true := by
    rcases hact with h | h <;> simp [h, hpr]
  have hane : (ice.action != "") = true := by
    rcases hact with h | h <;> simp [h]
  have hupd : updateIssueCommentEvent cfg env ice ⟨"", ""⟩ body =
      (⟨pr.headSHA, "refs/pull/" ++ toString pr.number ++ "/head"⟩,
        .marshaled ⟨"issue_comment", tok, timeout, pl, cfg.appID, ice.installationID,
          pr.headSHA, "refs/pull/" ++ toString pr.number ++ "/head"⟩, []) := by
    simp [updateIssueCommentEvent, htok, hfetch, marshalWithGithubPayload, hrep]
  have hsched := scheduleBuild_both cfg env "issue_comment" ice.action
    ⟨pr.headSHA, "refs/pull/" ++ toString pr.number ++ "/head"⟩
    (.marshaled ⟨"issue_comment", tok, timeout, pl, cfg.appID, ice.installationID,
      pr.headSHA, "refs/pull/" ++ toString pr.number ++ "/head"⟩) proj
    ⟨tok, ice.issueID⟩ hane hE1 hE2
  simp [handleIssueComment, hgvp, hactb, hauth, hupd, prRef_beq_empty_false,
    icePayloadToBuildOpts, pbLength, unmarshalPayloadToken, hsched]

/-- Witness for C6 at concrete inputs: a created comment on PR 2 by an
OWNER, minted token `t0k`, fetched head SHA `0d1a`, re-parsed body
`pl0`. -/
theorem c6_witness :
    ((⟨fun _ => some ⟨"p1", "o/r", "s"⟩, fun _ => false, fun _ _ => some ("t0k", 60),
        fun _ => some ⟨"0d1a", 2⟩, fun _ => some (Json.obj [("ok", Json.bool true)]),
        none⟩ : Env).getProject "o/r" = some ⟨"p1", "o/r", "s"⟩) ∧
    (handleIssueComment ⟨true, 1, "", ["*"], true⟩
        ⟨fun _ => some ⟨"p1", "o/r", "s"⟩, fun _ => false, fun _ _ => some ("t0k", 60),
          fun _ => some ⟨"0d1a", 2⟩, fun _ => some (Json.obj [("ok", Json.bool true)]),
          none⟩
        ["COLLABORATOR", "OWNER", "MEMBER"] "issue_comment"
        (some ⟨"created", "o/r", 11, 2, true, "OWNER", 9, 1⟩) [123]
        (SHA1HMAC (utf8Bytes "s") [123])).builds =
      [mkBuild "issue_comment" ⟨"0d1a", "refs/pull/" ++ toString (2 : Nat) ++ "/head"⟩
        (.marshaled ⟨"issue_comment", "t0k", 60, Json.obj [("ok", Json.bool true)], 1, 9,
          "0d1a", "refs/pull/" ++ toString (2 : Nat) ++ "/head"⟩) ⟨"p1", "o/r", "s"⟩,
       mkBuild ("issue_comment" ++ ":" ++ "created")
        ⟨"0d1a", "refs/pull/" ++ toString (2 : Nat) ++ "/head"⟩
        (.marshaled ⟨"issue_comment", "t0k", 60, Json.obj [("ok", Json.bool true)], 1, 9,
          "0d1a", "refs/pull/" ++ toString (2 : Nat) ++ "/head"⟩) ⟨"p1", "o/r", "s"⟩] ∧
    ("t0k" : String) ≠ "" :=
  ⟨rfl, c6_enriched_payload_token_and_body ⟨true, 1, "", ["*"], true⟩
    ⟨fun _ => some ⟨"p1", "o/r", "s"⟩, fun _ => false, fun _ _ => some ("t0k", 60),
      fun _ => some ⟨"0d1a", 2⟩, fun _ => some (Json.obj [("ok", Json.bool true)]), none⟩
    ["COLLABORATOR", "OWNER", "MEMBER"] ⟨"created", "o/r", 11, 2, true, "OWNER", 9, 1⟩
    [123] (SHA1HMAC (utf8Bytes "s") [123]) ⟨"p1", "o/r", "s"⟩ "t0k" 60 ⟨"0d1a", 2⟩
    (Json.obj [("ok", Json.bool true)])
    rfl (by decide) (validateSignature_self "s" [123]) (Or.inl rfl) rfl (by decide)
    rfl (by decide) rfl rfl (by decide) (by decide)⟩

end Brigade
